import Mathlib

/-!
# The exported operations of cmd/status/library.go

A shallow embedding of the foreign-call export layer of status-go.  Every
exported Go function of `library.go` is a Lean function of the same name.

* A `*C.char` argument is represented by the Go string that `C.GoString`
  reads from it.
* The packages `geth` and `jail` are imported by the file and are not part of
  it: their functions are fields of the records `Geth` and `Jail`, and the
  state they keep (process-wide singletons) is the type parameter `σ`.
* A Go call either returns or panics; `Outcome` records which.  The file
  contains no `recover`, so a panic of a callee is the outcome of the caller.
* The value an operation hands back is the struct literal `out` that the Go
  code passes to `json.Marshal`; the C string is the encoding of that struct.
* `World` carries, next to the package state, the lines written to standard
  error and a ghost log of the calls made into `geth` and `jail`.
-/

namespace Status

/-! ## Go values -/

/-- A non-nil Go error value; `Error` is the text of its `Error()` method. -/
structure GoError where
  Error : String
  deriving DecidableEq, Repr

/-- The Go interface type `error`: `none` is `nil`. -/
abbrev error := Option GoError

/-- The go-ethereum type `common.Hash`, an array of 32 bytes. -/
structure Hash where
  bytes : List (Fin 256)
  size : bytes.length = 32
  deriving DecidableEq, Repr

/-- The zero value of `common.Hash`. -/
def Hash.zero : Hash := ⟨List.replicate 32 0, by decide⟩

/-- Two lower-case hexadecimal digits of one byte. -/
def hexByte (b : Fin 256) : List Char :=
  [Nat.digitChar (b.val / 16), Nat.digitChar (b.val % 16)]

/-- The method `Hex` of `common.Hash`: the characters 0x followed by the
lower-case hexadecimal digits of the 32 bytes. -/
def Hash.Hex (h : Hash) : String :=
  "0x" ++ String.mk (h.bytes.flatMap hexByte)

/-- The outcome of a Go call: it returns a value or it panics with a value
(rendered as text). -/
inductive Outcome (α : Type) where
  | returned (a : α) : Outcome α
  | panicked (v : String) : Outcome α
  deriving DecidableEq, Repr

/-- The panic value of an outcome, `none` when the call returned. -/
def Outcome.fault {α : Type} : Outcome α → Option String
  | .returned _ => none
  | .panicked v => some v

/-! ## Result structures

The struct types are declared in package `geth`; the fields below are the
ones the composite literals of `library.go` set. -/

/-- The type `geth.AccountInfo`. -/
structure AccountInfo where
  Address : String := ""
  PubKey : String := ""
  Mnemonic : String := ""
  Error : String := ""
  deriving DecidableEq, Repr

/-- The type `geth.JSONError`. -/
structure JSONError where
  Error : String := ""
  deriving DecidableEq, Repr

/-- The type `geth.CompleteTransactionResult`. -/
structure CompleteTransactionResult where
  Hash : String := ""
  Error : String := ""
  deriving DecidableEq, Repr

/-- The type `geth.DiscardTransactionResult`. -/
structure DiscardTransactionResult where
  Id : String := ""
  Error : String := ""
  deriving DecidableEq, Repr

/-- The type `geth.AddPeerResult`. -/
structure AddPeerResult where
  Success : Bool := false
  Error : String := ""
  deriving DecidableEq, Repr

/-- The type `geth.AddWhisperFilterResult`. -/
structure AddWhisperFilterResult where
  Id : Int := 0
  Error : String := ""
  deriving DecidableEq, Repr

/-! ## The imported packages -/

/-- A call from `library.go` into package `geth` or `jail`, with its
arguments (`φ` is `whisper.NewFilterArgs`). -/
inductive Invocation (φ : Type) where
  | CreateAccount (password : String)
  | CreateChildAccount (parentAddress password : String)
  | RecoverAccount (password mnemonic : String)
  | SelectAccount (address password : String)
  | Logout
  | UnlockAccount (address password : String) (seconds : Int)
  | CompleteTransaction (id password : String)
  | DiscardTransaction (id : String)
  | CreateAndRunNode (datadir : String) (port : Int)
  | GetNodeManager
  | AddPeer (url : String)
  | AddWhisperFilter (filter : φ)
  | RemoveWhisperFilter (idFilter : Int)
  | ClearWhisperFilters
  | JailInit (js : String)
  | JailGetInstance
  | JailParse (chatId js : String)
  | JailCall (chatId path params : String)
  deriving DecidableEq, Repr

/-- The functions and the constant of package `geth` that `library.go` uses.
`σ` is the state of the imported packages, `φ` is `whisper.NewFilterArgs`,
`μ` is the node manager that `GetNodeManager` returns. -/
structure Geth (σ φ μ : Type) where
  CreateAccount : String → σ → Outcome ((String × String × String × error) × σ)
  CreateChildAccount : String → String → σ → Outcome ((String × String × error) × σ)
  RecoverAccount : String → String → σ → Outcome ((String × String × error) × σ)
  SelectAccount : String → String → σ → Outcome (error × σ)
  Logout : σ → Outcome (error × σ)
  UnlockAccount : String → String → Int → σ → Outcome (error × σ)
  CompleteTransaction : String → String → σ → Outcome ((Hash × error) × σ)
  DiscardTransaction : String → σ → Outcome (error × σ)
  CreateAndRunNode : String → Int → σ → Outcome (error × σ)
  RPCPort : Int
  GetNodeManager : σ → Outcome (μ × σ)
  AddPeer : μ → String → σ → Outcome ((Bool × error) × σ)
  AddWhisperFilter : φ → σ → Outcome (Int × σ)
  RemoveWhisperFilter : Int → σ → Outcome (Unit × σ)
  ClearWhisperFilters : σ → Outcome (Unit × σ)

/-- The functions of package `jail` that `library.go` uses; `ι` is the type
of the instance that `GetInstance` returns. -/
structure Jail (σ ι : Type) where
  Init : String → σ → Outcome (Unit × σ)
  GetInstance : σ → Outcome (ι × σ)
  Parse : ι → String → String → σ → Outcome (String × σ)
  Call : ι → String → String → String → σ → Outcome (String × σ)

/-- What a call of an exported operation can observe and change. -/
structure World (σ φ : Type) where
  core : σ
  stderr : List String
  calls : List (Invocation φ)

section Exports

variable {σ φ μ ι α : Type}

/-- One call into an imported package: the ghost log gets the call, the
package state is the one the callee leaves; a panic of the callee is the
outcome. -/
def invoke (c : Invocation φ) (op : σ → Outcome (α × σ)) (w : World σ φ) :
    Outcome (α × World σ φ) :=
  match op w.core with
  | .returned (a, s) => .returned (a, { w with core := s, calls := w.calls ++ [c] })
  | .panicked v => .panicked v

/-- The statement `fmt.Fprintln(os.Stderr, err)`. -/
def Fprintln_Stderr (e : GoError) (w : World σ φ) : World σ φ :=
  { w with stderr := w.stderr ++ [e.Error ++ "\n"] }

/-- The lines
`errString := ""; if err != nil { fmt.Fprintln(os.Stderr, err); errString = err.Error() }`
that every operation with a result contains. -/
def errStringOf (err : error) (w : World σ φ) : String × World σ φ :=
  match err with
  | none => ("", w)
  | some e => (e.Error, Fprintln_Stderr e w)

/-- Exported operation `CreateAccount`. -/
def CreateAccount (geth : Geth σ φ μ) (password : String) (w : World σ φ) :
    Outcome (AccountInfo × World σ φ) :=
  match invoke (Invocation.CreateAccount password) (geth.CreateAccount password) w with
  | .panicked v => .panicked v
  | .returned ((address, pubKey, mnemonic, err), w1) =>
    let errString := errStringOf err w1
    .returned ({ Address := address, PubKey := pubKey, Mnemonic := mnemonic,
                 Error := errString.1 }, errString.2)

/-- Exported operation `CreateChildAccount`. -/
def CreateChildAccount (geth : Geth σ φ μ) (parentAddress password : String)
    (w : World σ φ) : Outcome (AccountInfo × World σ φ) :=
  match invoke (Invocation.CreateChildAccount parentAddress password)
      (geth.CreateChildAccount parentAddress password) w with
  | .panicked v => .panicked v
  | .returned ((address, pubKey, err), w1) =>
    let errString := errStringOf err w1
    .returned ({ Address := address, PubKey := pubKey, Error := errString.1 }, errString.2)

/-- Exported operation `RecoverAccount`. -/
def RecoverAccount (geth : Geth σ φ μ) (password mnemonic : String) (w : World σ φ) :
    Outcome (AccountInfo × World σ φ) :=
  match invoke (Invocation.RecoverAccount password mnemonic)
      (geth.RecoverAccount password mnemonic) w with
  | .panicked v => .panicked v
  | .returned ((address, pubKey, err), w1) =>
    let errString := errStringOf err w1
    .returned ({ Address := address, PubKey := pubKey, Mnemonic := mnemonic,
                 Error := errString.1 }, errString.2)

/-- Exported operation `Login`. -/
def Login (geth : Geth σ φ μ) (address password : String) (w : World σ φ) :
    Outcome (JSONError × World σ φ) :=
  match invoke (Invocation.SelectAccount address password)
      (geth.SelectAccount address password) w with
  | .panicked v => .panicked v
  | .returned (err, w1) =>
    let errString := errStringOf err w1
    .returned ({ Error := errString.1 }, errString.2)

/-- Exported operation `Logout`. -/
def Logout (geth : Geth σ φ μ) (w : World σ φ) : Outcome (JSONError × World σ φ) :=
  match invoke Invocation.Logout geth.Logout w with
  | .panicked v => .panicked v
  | .returned (err, w1) =>
    let errString := errStringOf err w1
    .returned ({ Error := errString.1 }, errString.2)

/-- Exported operation `UnlockAccount`. -/
def UnlockAccount (geth : Geth σ φ μ) (address password : String) (seconds : Int)
    (w : World σ φ) : Outcome (JSONError × World σ φ) :=
  match invoke (Invocation.UnlockAccount address password seconds)
      (geth.UnlockAccount address password seconds) w with
  | .panicked v => .panicked v
  | .returned (err, w1) =>
    let errString := errStringOf err w1
    .returned ({ Error := errString.1 }, errString.2)

/-- Exported operation `CompleteTransaction`. -/
def CompleteTransaction (geth : Geth σ φ μ) (id password : String) (w : World σ φ) :
    Outcome (CompleteTransactionResult × World σ φ) :=
  match invoke (Invocation.CompleteTransaction id password)
      (geth.CompleteTransaction id password) w with
  | .panicked v => .panicked v
  | .returned ((txHash, err), w1) =>
    let errString := errStringOf err w1
    .returned ({ Hash := txHash.Hex, Error := errString.1 }, errString.2)

/-- Exported operation `DiscardTransaction`. -/
def DiscardTransaction (geth : Geth σ φ μ) (id : String) (w : World σ φ) :
    Outcome (DiscardTransactionResult × World σ φ) :=
  match invoke (Invocation.DiscardTransaction id) (geth.DiscardTransaction id) w with
  | .panicked v => .panicked v
  | .returned (err, w1) =>
    let errString := errStringOf err w1
    .returned ({ Id := id, Error := errString.1 }, errString.2)

/-- Exported operation `StartNode`. -/
def StartNode (geth : Geth σ φ μ) (datadir : String) (w : World σ φ) :
    Outcome (JSONError × World σ φ) :=
  match invoke (Invocation.CreateAndRunNode datadir geth.RPCPort)
      (geth.CreateAndRunNode datadir geth.RPCPort) w with
  | .panicked v => .panicked v
  | .returned (err, w1) =>
    let errString := errStringOf err w1
    .returned ({ Error := errString.1 }, errString.2)

/-- Exported operation `InitJail`. -/
def InitJail (jail : Jail σ ι) (js : String) (w : World σ φ) : Outcome (Unit × World σ φ) :=
  invoke (Invocation.JailInit js) (jail.Init js) w

/-- Exported operation `Parse`. -/
def Parse (jail : Jail σ ι) (chatId js : String) (w : World σ φ) :
    Outcome (String × World σ φ) :=
  match invoke Invocation.JailGetInstance jail.GetInstance w with
  | .panicked v => .panicked v
  | .returned (inst, w1) =>
    match invoke (Invocation.JailParse chatId js) (jail.Parse inst chatId js) w1 with
    | .panicked v => .panicked v
    | .returned (res, w2) => .returned (res, w2)

/-- Exported operation `Call`. -/
def Call (jail : Jail σ ι) (chatId path params : String) (w : World σ φ) :
    Outcome (String × World σ φ) :=
  match invoke Invocation.JailGetInstance jail.GetInstance w with
  | .panicked v => .panicked v
  | .returned (inst, w1) =>
    match invoke (Invocation.JailCall chatId path params) (jail.Call inst chatId path params) w1 with
    | .panicked v => .panicked v
    | .returned (res, w2) => .returned (res, w2)

/-- Exported operation `AddPeer`. -/
def AddPeer (geth : Geth σ φ μ) (url : String) (w : World σ φ) :
    Outcome (AddPeerResult × World σ φ) :=
  match invoke Invocation.GetNodeManager geth.GetNodeManager w with
  | .panicked v => .panicked v
  | .returned (manager, w1) =>
    match invoke (Invocation.AddPeer url) (geth.AddPeer manager url) w1 with
    | .panicked v => .panicked v
    | .returned ((success, err), w2) =>
      let errString := errStringOf err w2
      .returned ({ Success := success, Error := errString.1 }, errString.2)

/-- Exported operation `AddWhisperFilter`.  `json_Unmarshal` is the standard
library function applied to the bytes of `filterJson` and a zero
`whisper.NewFilterArgs`: it gives the value left in `filter` and the error.
The variable `id` starts at zero and is assigned only when `err` is nil. -/
def AddWhisperFilter (geth : Geth σ φ μ) (json_Unmarshal : String → φ × error)
    (filterJson : String) (w : World σ φ) : Outcome (AddWhisperFilterResult × World σ φ) :=
  let decoded := json_Unmarshal filterJson
  let filter := decoded.1
  let err := decoded.2
  let assigned : Outcome (Int × World σ φ) :=
    match err with
    | none => invoke (Invocation.AddWhisperFilter filter) (geth.AddWhisperFilter filter) w
    | some _ => .returned (0, w)
  match assigned with
  | .panicked v => .panicked v
  | .returned (id, w1) =>
    let errString := errStringOf err w1
    .returned ({ Id := id, Error := errString.1 }, errString.2)

/-- Exported operation `RemoveWhisperFilter`. -/
def RemoveWhisperFilter (geth : Geth σ φ μ) (idFilter : Int) (w : World σ φ) :
    Outcome (Unit × World σ φ) :=
  invoke (Invocation.RemoveWhisperFilter idFilter) (geth.RemoveWhisperFilter idFilter) w

/-- Exported operation `ClearWhisperFilters`. -/
def ClearWhisperFilters (geth : Geth σ φ μ) (w : World σ φ) : Outcome (Unit × World σ φ) :=
  invoke Invocation.ClearWhisperFilters geth.ClearWhisperFilters w

end Exports

/-! ## The core behind the exports

Packages `geth` and `jail` belong to the repository but their sources are not
part of the examined file.  The definitions of this section follow the
specification of the core: error kinds (section 7), data model (section 3),
session manager (4.2), transaction queue (4.3) and filter registry (4.5). -/

/-- Modelled from the spec: the error kinds of section 7 that the account,
session, queue and registry operations report (the sources of package `geth`,
where the Go error values are declared, are missing). -/
inductive ErrorKind where
  | InvalidPassword
  | AccountNotFound
  | WeakPassword
  | EntropyFailure
  | InvalidMnemonic
  | TxNotFound
  | TxAlreadyFinalized
  | NodeUnavailable
  | BroadcastFailed
  | MalformedFilterCriteria
  deriving DecidableEq, Repr

/-- Modelled from the spec: the text of an error kind (the Go error values of
package `geth` are missing).  The spec names the kinds and gives no other
text, so the text is the name. -/
def ErrorKind.Error : ErrorKind → String
  | .InvalidPassword => "InvalidPassword"
  | .AccountNotFound => "AccountNotFound"
  | .WeakPassword => "WeakPassword"
  | .EntropyFailure => "EntropyFailure"
  | .InvalidMnemonic => "InvalidMnemonic"
  | .TxNotFound => "TxNotFound"
  | .TxAlreadyFinalized => "TxAlreadyFinalized"
  | .NodeUnavailable => "NodeUnavailable"
  | .BroadcastFailed => "BroadcastFailed"
  | .MalformedFilterCriteria => "MalformedFilterCriteria"

/-- The Go error value of an optional error kind. -/
def toError : Option ErrorKind → error
  | none => none
  | some k => some ⟨k.Error⟩

/-- Modelled from the spec: status of a pending transaction (section 3; the
queue of package `geth` is missing). -/
inductive TxStatus where
  | Pending
  | Completed
  | Discarded
  deriving DecidableEq, Repr

/-- Modelled from the spec: the entry PendingTransaction of section 3 (the
queue of package `geth` is missing); `signed` is the signed payload
that section 4.3 records at completion. -/
structure PendingTransaction where
  id : String
  payload : String
  status : TxStatus
  signed : Option String
  deriving DecidableEq, Repr

/-- Modelled from the spec: the Identity of section 3 as the vault stores it
(the vault of package `geth` is missing). -/
structure Identity where
  address : String
  pubKey : String
  keyMaterial : String
  deriving DecidableEq, Repr

/-- Modelled from the spec: the Session of section 3 (the session manager of
package `geth` is missing): the address of the selected identity and the
instant at which the unlock window ends. -/
structure Session where
  active : Option String
  expiry : Option Nat
  deriving DecidableEq, Repr

/-- Modelled from the spec: the FilterEntry of section 3 (the registry of
package `geth` is missing). -/
structure FilterEntry (φ : Type) where
  id : Int
  criteria : φ
  deriving DecidableEq, Repr

/-- Modelled from the spec: the state of the core (package `geth` is
missing): vault, session, monotonic clock, transaction queue with its id
counter, filter registry with its id counter. -/
structure Core (φ : Type) where
  vault : List Identity
  session : Session
  now : Nat
  queue : List PendingTransaction
  nextTx : Nat
  filters : List (FilterEntry φ)
  nextFilter : Int

/-- Modelled from the spec: the capabilities the spec leaves unspecified
(sections 1 and 6; they live in package `geth` and in the Node, both
missing): decryption of key material under a password, signing by the vault
for an address, broadcast by the Node. -/
structure Capabilities where
  decrypt : String → String → Option String
  sign : String → String → String
  broadcast : String → Except ErrorKind Hash

section CoreModel

variable {φ : Type}

/-- Modelled from the spec: VerifyAndDecrypt of section 4.1 (the vault of
package `geth` is missing). -/
def VerifyAndDecrypt (caps : Capabilities) (vault : List Identity)
    (address password : String) : Except ErrorKind String :=
  match vault.find? (fun i => i.address == address) with
  | none => .error .AccountNotFound
  | some i =>
    match caps.decrypt i.keyMaterial password with
    | none => .error .InvalidPassword
    | some key => .ok key

/-- Modelled from the spec: Login of section 4.2 (`geth.SelectAccount` is
missing).  On success the identity replaces the selected one, the unlock
state of the previous one is gone and the filter registry is cleared; on
failure nothing changes. -/
def specSelectAccount (caps : Capabilities) (address password : String) (s : Core φ) :
    Option ErrorKind × Core φ :=
  match VerifyAndDecrypt caps s.vault address password with
  | .error k => (some k, s)
  | .ok _ => (none, { s with session := { active := some address, expiry := none },
                             filters := [] })

/-- Modelled from the spec: Logout of section 4.2 (`geth.Logout` is
missing). -/
def specLogout (s : Core φ) : Option ErrorKind × Core φ :=
  (none, { s with session := { active := none, expiry := none }, filters := [] })

/-- Modelled from the spec: UnlockAccount of section 4.2 (`geth.UnlockAccount`
is missing): the password is verified again and the expiry is set, the
selection stays. -/
def specUnlockAccount (caps : Capabilities) (address password : String) (seconds : Int)
    (s : Core φ) : Option ErrorKind × Core φ :=
  match VerifyAndDecrypt caps s.vault address password with
  | .error k => (some k, s)
  | .ok _ => (none, { s with session := { s.session with
                                          expiry := some (s.now + seconds.toNat) } })

/-- Modelled from the spec: Authorize of section 4.2 (the session manager of
package `geth` is missing). -/
def Authorize (caps : Capabilities) (s : Core φ) (address password : String) : Bool :=
  let unlocked : Bool :=
    match s.session.expiry with
    | some t => decide (s.now < t)
    | none => false
  if s.session.active = some address ∧ unlocked = true then true
  else
    match VerifyAndDecrypt caps s.vault address password with
    | .ok _ => true
    | .error _ => false

/-- Status of the entry with the given id, `none` when the queue has none. -/
def statusOf (id : String) (queue : List PendingTransaction) : Option TxStatus :=
  (queue.find? (fun tx => tx.id == id)).map (fun tx => tx.status)

/-- The queue with the entries of the given id set to a terminal status. -/
def finalize (id : String) (st : TxStatus) (signed : Option String)
    (queue : List PendingTransaction) : List PendingTransaction :=
  queue.map (fun tx => if tx.id == id then { tx with status := st, signed := signed } else tx)

/-- Modelled from the spec: Propose of section 4.3 (the queue of package
`geth` is missing).  The id is the decimal numeral of the queue counter. -/
def specPropose (payload : String) (s : Core φ) : String × Core φ :=
  (toString s.nextTx,
   { s with queue := s.queue ++ [{ id := toString s.nextTx, payload := payload,
                                   status := .Pending, signed := none }],
            nextTx := s.nextTx + 1 })

/-- Modelled from the spec: Complete of section 4.3 (`geth.CompleteTransaction`
is missing).  The hash handed back next to an error is the zero hash. -/
def specCompleteTransaction (caps : Capabilities) (id password : String) (s : Core φ) :
    (Hash × Option ErrorKind) × Core φ :=
  match s.queue.find? (fun tx => tx.id == id) with
  | none => ((Hash.zero, some .TxNotFound), s)
  | some tx =>
    if tx.status ≠ .Pending then ((Hash.zero, some .TxAlreadyFinalized), s)
    else
      match s.session.active with
      | none => ((Hash.zero, some .InvalidPassword), s)
      | some address =>
        if Authorize caps s address password then
          let signed := caps.sign address tx.payload
          let s1 := { s with queue := finalize id .Completed (some signed) s.queue }
          match caps.broadcast signed with
          | .ok h => ((h, none), s1)
          | .error k => ((Hash.zero, some k), s1)
        else ((Hash.zero, some .InvalidPassword), s)

/-- Modelled from the spec: Discard of section 4.3 (`geth.DiscardTransaction`
is missing). -/
def specDiscardTransaction (id : String) (s : Core φ) : Option ErrorKind × Core φ :=
  match s.queue.find? (fun tx => tx.id == id) with
  | none => (some .TxNotFound, s)
  | some tx =>
    if tx.status ≠ .Pending then (some .TxAlreadyFinalized, s)
    else (none, { s with queue := finalize id .Discarded none s.queue })

/-- Modelled from the spec: storing an entry in the registry of section 4.5
(`geth.AddWhisperFilter` is missing): the next id is allocated. -/
def specAddWhisperFilter (filter : φ) (s : Core φ) : Int × Core φ :=
  (s.nextFilter, { s with filters := s.filters ++ [{ id := s.nextFilter, criteria := filter }],
                          nextFilter := s.nextFilter + 1 })

/-- Modelled from the spec: Remove of section 4.5 (`geth.RemoveWhisperFilter`
is missing). -/
def specRemoveWhisperFilter (idFilter : Int) (s : Core φ) : Unit × Core φ :=
  ((), { s with filters := s.filters.filter (fun f => f.id != idFilter) })

/-- Modelled from the spec: Clear of section 4.5 (`geth.ClearWhisperFilters`
is missing). -/
def specClearWhisperFilters (s : Core φ) : Unit × Core φ :=
  ((), { s with filters := [] })

/-- The Go function `geth.SelectAccount` over the modelled core. -/
def coreSelectAccount (caps : Capabilities) (address password : String) (s : Core φ) :
    Outcome (error × Core φ) :=
  let r := specSelectAccount caps address password s
  .returned (toError r.1, r.2)

/-- The Go function `geth.CompleteTransaction` over the modelled core. -/
def coreCompleteTransaction (caps : Capabilities) (id password : String) (s : Core φ) :
    Outcome ((Hash × error) × Core φ) :=
  let r := specCompleteTransaction caps id password s
  .returned ((r.1.1, toError r.1.2), r.2)

/-- The Go function `geth.DiscardTransaction` over the modelled core. -/
def coreDiscardTransaction (id : String) (s : Core φ) : Outcome (error × Core φ) :=
  let r := specDiscardTransaction id s
  .returned (toError r.1, r.2)

/-- One step of the core as the transaction queue sees it: a proposal, a
completion, a discard (each for any id, payload and password), or any other
operation, which by section 3 does not write the queue. -/
inductive Step (caps : Capabilities) : Core φ → Core φ → Prop where
  | propose (payload : String) (s : Core φ) : Step caps s (specPropose payload s).2
  | complete (id password : String) (s : Core φ) :
      Step caps s (specCompleteTransaction caps id password s).2
  | discard (id : String) (s : Core φ) : Step caps s (specDiscardTransaction id s).2
  | other (s t : Core φ) (h : t.queue = s.queue) : Step caps s t

/-- Any number of steps of the core, in any order. -/
def Reachable (caps : Capabilities) (s t : Core φ) : Prop :=
  Relation.ReflTransGen (Step caps) s t

end CoreModel

/-! ## Example core

A concrete core on which the statements below are evaluated: the modelled
session, queue and registry operations, and plain account and node
operations. -/

/-- Example capabilities: key material is the password followed by a suffix;
the Node accepts every payload except the empty one. -/
def demoCaps : Capabilities where
  decrypt := fun material password =>
    if material = password ++ "-key" then some "key" else none
  sign := fun address payload => address ++ payload
  broadcast := fun signed =>
    if signed = "" then .error .BroadcastFailed
    else .ok ⟨List.replicate 32 171, by decide⟩

/-- Example core state: one identity, selected; one pending and one discarded
transaction; one filter. -/
def demoCore : Core String where
  vault := [{ address := "0xa1", pubKey := "0x04b1", keyMaterial := "secret-key" }]
  session := { active := some "0xa1", expiry := none }
  now := 10
  queue := [{ id := "0", payload := "pay", status := .Pending, signed := none },
            { id := "1", payload := "gift", status := .Discarded, signed := none }]
  nextTx := 2
  filters := [{ id := 0, criteria := "topic-a" }]
  nextFilter := 1

/-- Example package `geth`: the operations the spec describes in sections 4.2
to 4.5, and account and node operations that reject empty arguments. -/
def demoGeth : Geth (Core String) String Unit where
  CreateAccount := fun password s =>
    if password = "" then .returned (("", "", "", toError (some .WeakPassword)), s)
    else .returned (("0xc3", "0x04d4", "abandon ability able", none), s)
  CreateChildAccount := fun parentAddress password s =>
    match VerifyAndDecrypt demoCaps s.vault parentAddress password with
    | .error k => .returned (("", "", toError (some k)), s)
    | .ok _ => .returned (("0xe5", "0x04f6", none), s)
  RecoverAccount := fun _ mnemonic s =>
    if mnemonic = "abandon ability able" then .returned (("0xc3", "0x04d4", none), s)
    else .returned (("", "", toError (some .InvalidMnemonic)), s)
  SelectAccount := coreSelectAccount demoCaps
  Logout := fun s => let r := specLogout s; .returned (toError r.1, r.2)
  UnlockAccount := fun address password seconds s =>
    let r := specUnlockAccount demoCaps address password seconds s
    .returned (toError r.1, r.2)
  CompleteTransaction := coreCompleteTransaction demoCaps
  DiscardTransaction := coreDiscardTransaction
  CreateAndRunNode := fun datadir _ s =>
    if datadir = "" then .returned (toError (some .NodeUnavailable), s) else .returned (none, s)
  RPCPort := 8545
  GetNodeManager := fun s => .returned ((), s)
  AddPeer := fun _ url s =>
    if url = "" then .returned ((false, toError (some .NodeUnavailable)), s)
    else .returned ((true, none), s)
  AddWhisperFilter := fun filter s => .returned (specAddWhisperFilter filter s)
  RemoveWhisperFilter := fun idFilter s => .returned (specRemoveWhisperFilter idFilter s)
  ClearWhisperFilters := fun s => .returned (specClearWhisperFilters s)

/-- Example package `geth` whose node manager is missing: `AddPeer` and
`CompleteTransaction` panic the way a nil dereference does. -/
def faultyGeth : Geth (Core String) String Unit :=
  { demoGeth with
    CompleteTransaction := fun _ _ _ =>
      .panicked "runtime error: invalid memory address or nil pointer dereference"
    AddPeer := fun _ _ _ =>
      .panicked "runtime error: invalid memory address or nil pointer dereference" }

/-- Example package `jail`: scripts are kept as text and echoed. -/
def demoJail : Jail (Core String) Unit where
  Init := fun _ s => .returned ((), s)
  GetInstance := fun s => .returned ((), s)
  Parse := fun _ chatId js s => .returned (chatId ++ ":" ++ js, s)
  Call := fun _ chatId path params s => .returned (chatId ++ ":" ++ path ++ ":" ++ params, s)

/-- Example decoder: a text that starts with an opening bracket decodes to
itself, any other text is a syntax error. -/
def demoUnmarshal (data : String) : String × error :=
  if data.front = '[' then (data, none)
  else ("", some ⟨"invalid character looking for beginning of value"⟩)

/-- Example world: the example core, nothing written, nothing called. -/
def demoWorld : World (Core String) String where
  core := demoCore
  stderr := []
  calls := []

/-- Example world after the pending transaction 0 was discarded. -/
def demoDiscarded : World (Core String) String where
  core := (specDiscardTransaction "0" demoCore).2
  stderr := []
  calls := [Invocation.DiscardTransaction "0"]

/-- Example world after the pending transaction 0 was completed. -/
def demoCompleted : World (Core String) String where
  core := (specCompleteTransaction demoCaps "0" "secret" demoCore).2
  stderr := []
  calls := [Invocation.CompleteTransaction "0" "secret"]

/-- Example world some steps after the discard: a proposal, then a completion
attempt on the discarded id. -/
def demoLater : World (Core String) String where
  core := (specCompleteTransaction demoCaps "0" "secret"
    (specPropose "more" demoDiscarded.core).2).2
  stderr := []
  calls := []

/-! ## Fields of the results -/

/-- A value of a result field. -/
inductive GoValue where
  | str (s : String)
  | bool (b : Bool)
  | int (i : Int)
  deriving DecidableEq, Repr

/-- The fields of `geth.AccountInfo`, by Go name. -/
def AccountInfo.fields (r : AccountInfo) : List (String × GoValue) :=
  [("Address", .str r.Address), ("PubKey", .str r.PubKey), ("Mnemonic", .str r.Mnemonic),
   ("Error", .str r.Error)]

/-- The fields of `geth.JSONError`, by Go name. -/
def JSONError.fields (r : JSONError) : List (String × GoValue) :=
  [("Error", .str r.Error)]

/-- The fields of `geth.CompleteTransactionResult`, by Go name. -/
def CompleteTransactionResult.fields (r : CompleteTransactionResult) :
    List (String × GoValue) :=
  [("Hash", .str r.Hash), ("Error", .str r.Error)]

/-- The fields of `geth.DiscardTransactionResult`, by Go name. -/
def DiscardTransactionResult.fields (r : DiscardTransactionResult) :
    List (String × GoValue) :=
  [("Id", .str r.Id), ("Error", .str r.Error)]

/-- The fields of `geth.AddPeerResult`, by Go name. -/
def AddPeerResult.fields (r : AddPeerResult) : List (String × GoValue) :=
  [("Success", .bool r.Success), ("Error", .str r.Error)]

/-- The fields of `geth.AddWhisperFilterResult`, by Go name. -/
def AddWhisperFilterResult.fields (r : AddWhisperFilterResult) : List (String × GoValue) :=
  [("Id", .int r.Id), ("Error", .str r.Error)]

/-- A result carries a mnemonic when it has a field Mnemonic that is not the
empty string. -/
def carriesMnemonic (fields : List (String × GoValue)) : Prop :=
  ∃ m, ("Mnemonic", GoValue.str m) ∈ fields ∧ m ≠ ""

/-! ## Properties of the exported operations -/

/-- The text the result carries for an error value: empty for nil, the
message of the error otherwise. -/
def errText : error → String
  | none => ""
  | some e => e.Error

section Lemmas

variable {σ φ μ ι α : Type}

theorem invoke_returned (c : Invocation φ) (op : σ → Outcome (α × σ)) (w : World σ φ)
    (a : α) (s : σ) (h : op w.core = .returned (a, s)) :
    invoke c op w = .returned (a, { w with core := s, calls := w.calls ++ [c] }) := by
  simp [invoke, h]

theorem invoke_panicked (c : Invocation φ) (op : σ → Outcome (α × σ)) (w : World σ φ)
    (v : String) (h : op w.core = .panicked v) :
    invoke c op w = .panicked v := by
  simp [invoke, h]

theorem invoke_fault (c : Invocation φ) (op : σ → Outcome (α × σ)) (w : World σ φ) :
    (invoke c op w).fault = (op w.core).fault := by
  unfold invoke
  cases h : op w.core with
  | returned a => rfl
  | panicked v => rfl

theorem errStringOf_fst (err : error) (w : World σ φ) : (errStringOf err w).1 = errText err := by
  cases err <;> rfl

theorem errStringOf_core (err : error) (w : World σ φ) : (errStringOf err w).2.core = w.core := by
  cases err <;> rfl

theorem errStringOf_calls (err : error) (w : World σ φ) :
    (errStringOf err w).2.calls = w.calls := by
  cases err <;> rfl

theorem Hex_ne_empty (h : Hash) : h.Hex ≠ "" := by
  intro heq
  have hlen := congrArg String.length heq
  simp only [Hash.Hex, String.length_append] at hlen
  have h2 : "0x".length = 2 := by decide
  have h0 : "".length = 0 := by decide
  omega

theorem fault_eq_none_iff (o : Outcome α) : o.fault = none ↔ ∃ a, o = .returned a := by
  cases o with
  | returned a => simp [Outcome.fault]
  | panicked v => simp [Outcome.fault]

theorem errText_toError (k : Option ErrorKind) : errText (toError k) = "" ↔ k = none := by
  cases k with
  | none => simp [toError, errText]
  | some k => cases k <;> simp [toError, errText, ErrorKind.Error]

theorem statusOf_cons (id : String) (tx : PendingTransaction) (q : List PendingTransaction) :
    statusOf id (tx :: q) = if tx.id = id then some tx.status else statusOf id q := by
  by_cases h : tx.id = id
  · simp [statusOf, List.find?_cons, h]
  · simp [statusOf, List.find?_cons, h]

theorem statusOf_append (id : String) (q : List PendingTransaction) (e : PendingTransaction)
    (st : TxStatus) (h : statusOf id q = some st) : statusOf id (q ++ [e]) = some st := by
  induction q with
  | nil => simp [statusOf] at h
  | cons tx q ih =>
    rw [List.cons_append, statusOf_cons]
    rw [statusOf_cons] at h
    by_cases hid : tx.id = id
    · simpa [hid] using h
    · simp only [hid, if_false] at h ⊢
      exact ih h

theorem statusOf_finalize_ne (id other : String) (st : TxStatus) (signed : Option String)
    (q : List PendingTransaction) (hne : other ≠ id) :
    statusOf id (finalize other st signed q) = statusOf id q := by
  induction q with
  | nil => rfl
  | cons tx q ih =>
    have hstep : finalize other st signed (tx :: q) =
        (if tx.id == other then { tx with status := st, signed := signed } else tx) ::
          finalize other st signed q := rfl
    rw [hstep, statusOf_cons, statusOf_cons, ih]
    by_cases ho : tx.id = other
    · have hid : tx.id ≠ id := by
        intro h
        exact hne (ho.symm.trans h)
      simp [ho, hid, hne]
    · simp [ho]

theorem statusOf_finalize_self (id : String) (st st0 : TxStatus) (signed : Option String)
    (q : List PendingTransaction) (h : statusOf id q = some st0) :
    statusOf id (finalize id st signed q) = some st := by
  induction q with
  | nil => simp [statusOf] at h
  | cons tx q ih =>
    have hstep : finalize id st signed (tx :: q) =
        (if tx.id == id then { tx with status := st, signed := signed } else tx) ::
          finalize id st signed q := rfl
    rw [hstep, statusOf_cons]
    rw [statusOf_cons] at h
    by_cases hid : tx.id = id
    · simp [hid]
    · simp only [hid, if_false] at h
      simp [hid, ih h]

theorem statusOf_of_find {id : String} {q : List PendingTransaction} {tx : PendingTransaction}
    (h : q.find? (fun tx => tx.id == id) = some tx) : statusOf id q = some tx.status := by
  simp [statusOf, h]

theorem find_of_statusOf {id : String} {q : List PendingTransaction} {st : TxStatus}
    (h : statusOf id q = some st) :
    ∃ tx, q.find? (fun tx => tx.id == id) = some tx ∧ tx.status = st := by
  unfold statusOf at h
  cases hf : q.find? (fun tx => tx.id == id) with
  | none => simp [hf] at h
  | some tx =>
    simp [hf] at h
    exact ⟨tx, rfl, h⟩

section QueueLemmas

variable {φ : Type}

theorem specComplete_queue (caps : Capabilities) (id password : String) (s : Core φ) :
    ((specCompleteTransaction caps id password s).1.2 ≠ none ∧
      (specCompleteTransaction caps id password s).2 = s) ∨
    (statusOf id s.queue = some .Pending ∧
      ∃ signed, (specCompleteTransaction caps id password s).2.queue =
        finalize id .Completed signed s.queue) := by
  unfold specCompleteTransaction
  split
  · exact Or.inl ⟨by simp, rfl⟩
  · rename_i tx hfind
    split
    · exact Or.inl ⟨by simp, rfl⟩
    · rename_i hpending
      have hp : tx.status = .Pending := by
        by_contra hc
        exact hpending hc
      split
      · exact Or.inl ⟨by simp, rfl⟩
      · rename_i address hactive
        split
        · right
          refine ⟨by rw [statusOf_of_find hfind, hp],
            some (caps.sign address tx.payload), ?_⟩
          dsimp only
          split <;> rfl
        · exact Or.inl ⟨by simp, rfl⟩

theorem specDiscard_queue (id : String) (s : Core φ) :
    ((specDiscardTransaction id s).1 ≠ none ∧ (specDiscardTransaction id s).2 = s) ∨
    (statusOf id s.queue = some .Pending ∧
      (specDiscardTransaction id s).2.queue = finalize id .Discarded none s.queue) := by
  unfold specDiscardTransaction
  split
  · exact Or.inl ⟨by simp, rfl⟩
  · rename_i tx hfind
    split
    · exact Or.inl ⟨by simp, rfl⟩
    · rename_i hpending
      have hp : tx.status = .Pending := by
        by_contra hc
        exact hpending hc
      right
      exact ⟨by rw [statusOf_of_find hfind, hp], rfl⟩

theorem step_keeps_terminal (caps : Capabilities) (s t : Core φ) (id : String) (st : TxStatus)
    (hst : st ≠ .Pending) (h : statusOf id s.queue = some st) (hstep : Step caps s t) :
    statusOf id t.queue = some st := by
  cases hstep with
  | propose payload => exact statusOf_append id _ _ st h
  | complete other password =>
    rcases specComplete_queue caps other password s with ⟨-, heq⟩ | ⟨hp, signed, hq⟩
    · rw [heq]
      exact h
    · have hne : other ≠ id := by
        intro ho
        subst ho
        rw [h] at hp
        exact hst (Option.some.inj hp)
      rw [hq, statusOf_finalize_ne id other _ _ _ hne]
      exact h
  | discard other =>
    rcases specDiscard_queue other s with ⟨-, heq⟩ | ⟨hp, hq⟩
    · rw [heq]
      exact h
    · have hne : other ≠ id := by
        intro ho
        subst ho
        rw [h] at hp
        exact hst (Option.some.inj hp)
      rw [hq, statusOf_finalize_ne id other _ _ _ hne]
      exact h
  | other _ _ hq =>
    rw [hq]
    exact h

theorem reachable_keeps_terminal (caps : Capabilities) (s t : Core φ) (id : String)
    (st : TxStatus) (hst : st ≠ .Pending) (h : statusOf id s.queue = some st)
    (hreach : Reachable caps s t) : statusOf id t.queue = some st := by
  induction hreach with
  | refl => exact h
  | tail _ hstep ih => exact step_keeps_terminal caps _ _ id st hst ih hstep

theorem specComplete_success (caps : Capabilities) (id password : String) (s : Core φ)
    (hok : (specCompleteTransaction caps id password s).1.2 = none) :
    statusOf id (specCompleteTransaction caps id password s).2.queue = some .Completed := by
  rcases specComplete_queue caps id password s with ⟨herr, -⟩ | ⟨hp, signed, hq⟩
  · exact absurd hok herr
  · rw [hq]
    exact statusOf_finalize_self id .Completed .Pending signed s.queue hp

theorem specDiscard_success (id : String) (s : Core φ)
    (hok : (specDiscardTransaction id s).1 = none) :
    statusOf id (specDiscardTransaction id s).2.queue = some .Discarded := by
  rcases specDiscard_queue id s with ⟨herr, -⟩ | ⟨hp, hq⟩
  · exact absurd hok herr
  · rw [hq]
    exact statusOf_finalize_self id .Discarded .Pending none s.queue hp

theorem specComplete_finalized (caps : Capabilities) (id password : String) (s : Core φ)
    (st : TxStatus) (hst : st ≠ .Pending) (h : statusOf id s.queue = some st) :
    specCompleteTransaction caps id password s = ((Hash.zero, some .TxAlreadyFinalized), s) := by
  obtain ⟨tx, hfind, htx⟩ := find_of_statusOf h
  have hne : tx.status ≠ .Pending := by
    rw [htx]
    exact hst
  simp [specCompleteTransaction, hfind, hne]

theorem specDiscard_finalized (id : String) (s : Core φ)
    (st : TxStatus) (hst : st ≠ .Pending) (h : statusOf id s.queue = some st) :
    specDiscardTransaction id s = (some .TxAlreadyFinalized, s) := by
  obtain ⟨tx, hfind, htx⟩ := find_of_statusOf h
  have hne : tx.status ≠ .Pending := by
    rw [htx]
    exact hst
  simp [specDiscardTransaction, hfind, hne]

theorem CompleteTransaction_over_core {μ : Type} (caps : Capabilities)
    (geth : Geth (Core φ) φ μ) (hC : geth.CompleteTransaction = coreCompleteTransaction caps)
    (id password : String) (w : World (Core φ) φ) :
    ∃ w1, CompleteTransaction geth id password w =
        .returned ({ Hash := (specCompleteTransaction caps id password w.core).1.1.Hex,
                     Error := errText (toError (specCompleteTransaction caps id password
                       w.core).1.2) }, w1) ∧
      w1.core = (specCompleteTransaction caps id password w.core).2 := by
  have h : geth.CompleteTransaction id password w.core =
      .returned (((specCompleteTransaction caps id password w.core).1.1,
        toError (specCompleteTransaction caps id password w.core).1.2),
        (specCompleteTransaction caps id password w.core).2) := by
    rw [hC]
    rfl
  simp only [CompleteTransaction, invoke_returned _ _ w _ _ h, errStringOf_fst]
  exact ⟨_, rfl, errStringOf_core _ _⟩

theorem DiscardTransaction_over_core {μ : Type} (geth : Geth (Core φ) φ μ)
    (hD : geth.DiscardTransaction = coreDiscardTransaction)
    (id : String) (w : World (Core φ) φ) :
    ∃ w1, DiscardTransaction geth id w =
        .returned ({ Id := id,
                     Error := errText (toError (specDiscardTransaction id w.core).1) }, w1) ∧
      w1.core = (specDiscardTransaction id w.core).2 := by
  have h : geth.DiscardTransaction id w.core =
      .returned (toError (specDiscardTransaction id w.core).1,
        (specDiscardTransaction id w.core).2) := by
    rw [hD]
    rfl
  simp only [DiscardTransaction, invoke_returned _ _ w _ _ h, errStringOf_fst]
  exact ⟨_, rfl, errStringOf_core _ _⟩

end QueueLemmas

end Lemmas

section Results

variable {σ φ μ ι : Type}

/-- C3: for CreateAccount, CreateChildAccount, RecoverAccount, Login, Logout,
UnlockAccount, CompleteTransaction, DiscardTransaction, StartNode and AddPeer,
whatever the input: when the core operation returns, the operation returns a
result whose Error field is empty if the core reported no error and is the
message of the error if it reported one, and whose payload fields (address,
public key, hash in its hexadecimal rendering, success flag) are the values
the core operation returned. -/
theorem result_carries_core_values (geth : Geth σ φ μ) (w : World σ φ) :
    (∀ password address pubKey mnemonic err s,
      geth.CreateAccount password w.core = .returned ((address, pubKey, mnemonic, err), s) →
      ∃ w1, CreateAccount geth password w =
        .returned ({ Address := address, PubKey := pubKey, Mnemonic := mnemonic,
                     Error := errText err }, w1) ∧ w1.core = s) ∧
    (∀ parentAddress password address pubKey err s,
      geth.CreateChildAccount parentAddress password w.core =
        .returned ((address, pubKey, err), s) →
      ∃ w1, CreateChildAccount geth parentAddress password w =
        .returned ({ Address := address, PubKey := pubKey, Error := errText err }, w1) ∧
        w1.core = s) ∧
    (∀ password mnemonic address pubKey err s,
      geth.RecoverAccount password mnemonic w.core = .returned ((address, pubKey, err), s) →
      ∃ r w1, RecoverAccount geth password mnemonic w = .returned (r, w1) ∧
        r.Address = address ∧ r.PubKey = pubKey ∧ r.Error = errText err ∧ w1.core = s) ∧
    (∀ address password err s,
      geth.SelectAccount address password w.core = .returned (err, s) →
      ∃ w1, Login geth address password w = .returned ({ Error := errText err }, w1) ∧
        w1.core = s) ∧
    (∀ err s, geth.Logout w.core = .returned (err, s) →
      ∃ w1, Logout geth w = .returned ({ Error := errText err }, w1) ∧ w1.core = s) ∧
    (∀ address password seconds err s,
      geth.UnlockAccount address password seconds w.core = .returned (err, s) →
      ∃ w1, UnlockAccount geth address password seconds w =
        .returned ({ Error := errText err }, w1) ∧ w1.core = s) ∧
    (∀ id password txHash err s,
      geth.CompleteTransaction id password w.core = .returned ((txHash, err), s) →
      ∃ w1, CompleteTransaction geth id password w =
        .returned ({ Hash := txHash.Hex, Error := errText err }, w1) ∧ w1.core = s) ∧
    (∀ id err s, geth.DiscardTransaction id w.core = .returned (err, s) →
      ∃ r w1, DiscardTransaction geth id w = .returned (r, w1) ∧
        r.Error = errText err ∧ w1.core = s) ∧
    (∀ datadir err s,
      geth.CreateAndRunNode datadir geth.RPCPort w.core = .returned (err, s) →
      ∃ w1, StartNode geth datadir w = .returned ({ Error := errText err }, w1) ∧
        w1.core = s) ∧
    (∀ url manager s1 success err s,
      geth.GetNodeManager w.core = .returned (manager, s1) →
      geth.AddPeer manager url s1 = .returned ((success, err), s) →
      ∃ w1, AddPeer geth url w =
        .returned ({ Success := success, Error := errText err }, w1) ∧ w1.core = s) := by
  refine ⟨?_, ?_, ?_, ?_, ?_, ?_, ?_, ?_, ?_, ?_⟩
  · intro password address pubKey mnemonic err s h
    simp only [CreateAccount, invoke_returned _ _ w _ _ h, errStringOf_fst]
    exact ⟨_, rfl, errStringOf_core _ _⟩
  · intro parentAddress password address pubKey err s h
    simp only [CreateChildAccount, invoke_returned _ _ w _ _ h, errStringOf_fst]
    exact ⟨_, rfl, errStringOf_core _ _⟩
  · intro password mnemonic address pubKey err s h
    simp only [RecoverAccount, invoke_returned _ _ w _ _ h, errStringOf_fst]
    exact ⟨_, _, rfl, rfl, rfl, rfl, errStringOf_core _ _⟩
  · intro address password err s h
    simp only [Login, invoke_returned _ _ w _ _ h, errStringOf_fst]
    exact ⟨_, rfl, errStringOf_core _ _⟩
  · intro err s h
    simp only [Logout, invoke_returned _ _ w _ _ h, errStringOf_fst]
    exact ⟨_, rfl, errStringOf_core _ _⟩
  · intro address password seconds err s h
    simp only [UnlockAccount, invoke_returned _ _ w _ _ h, errStringOf_fst]
    exact ⟨_, rfl, errStringOf_core _ _⟩
  · intro id password txHash err s h
    simp only [CompleteTransaction, invoke_returned _ _ w _ _ h, errStringOf_fst]
    exact ⟨_, rfl, errStringOf_core _ _⟩
  · intro id err s h
    simp only [DiscardTransaction, invoke_returned _ _ w _ _ h, errStringOf_fst]
    exact ⟨_, _, rfl, rfl, errStringOf_core _ _⟩
  · intro datadir err s h
    simp only [StartNode, invoke_returned _ _ w _ _ h, errStringOf_fst]
    exact ⟨_, rfl, errStringOf_core _ _⟩
  · intro url manager s1 success err s h1 h2
    have h2' : geth.AddPeer manager url
        ({ w with core := s1, calls := w.calls ++ [Invocation.GetNodeManager] } :
          World σ φ).core = .returned ((success, err), s) := h2
    simp only [AddPeer, invoke_returned _ _ w _ _ h1, invoke_returned _ _ _ _ _ h2',
      errStringOf_fst]
    exact ⟨_, rfl, errStringOf_core _ _⟩

/-- C3 at concrete inputs: a rejected empty password, and an accepted peer. -/
theorem result_carries_core_values_witness :
    (∃ w1, CreateAccount demoGeth "" demoWorld =
      .returned ({ Address := "", PubKey := "", Mnemonic := "", Error := "WeakPassword" }, w1) ∧
      w1.core = demoCore) ∧
    (∃ w1, AddPeer demoGeth "enode://peer" demoWorld =
      .returned ({ Success := true, Error := "" }, w1) ∧ w1.core = demoCore) :=
  ⟨(result_carries_core_values demoGeth demoWorld).1 "" "" "" ""
      (toError (some .WeakPassword)) demoCore rfl,
   (result_carries_core_values demoGeth demoWorld).2.2.2.2.2.2.2.2.2 "enode://peer" ()
      demoCore true none demoCore rfl rfl⟩

/-- C9: the Mnemonic field of the result of RecoverAccount is the mnemonic
given by the caller, whatever the core operation returned: every result has
it, and when the core returns (with an error or without) there is a result
and it has it. -/
theorem recover_echoes_mnemonic (geth : Geth σ φ μ) (password mnemonic : String)
    (w : World σ φ) :
    (∀ r w1, RecoverAccount geth password mnemonic w = .returned (r, w1) →
      r.Mnemonic = mnemonic) ∧
    (∀ address pubKey err s,
      geth.RecoverAccount password mnemonic w.core = .returned ((address, pubKey, err), s) →
      ∃ r w1, RecoverAccount geth password mnemonic w = .returned (r, w1) ∧
        r.Mnemonic = mnemonic ∧ r.Error = errText err) := by
  constructor
  · intro r w1 h
    unfold RecoverAccount at h
    split at h
    · cases h
    · cases h
      rfl
  · intro address pubKey err s h
    simp only [RecoverAccount, invoke_returned _ _ w _ _ h, errStringOf_fst]
    exact ⟨_, _, rfl, rfl, rfl⟩

/-- C9 at a concrete input: a malformed mnemonic is echoed next to the
error. -/
theorem recover_echoes_mnemonic_witness :
    ∃ r w1, RecoverAccount demoGeth "pw" "not a mnemonic" demoWorld = .returned (r, w1) ∧
      r.Mnemonic = "not a mnemonic" ∧ r.Error = "InvalidMnemonic" :=
  (recover_echoes_mnemonic demoGeth "pw" "not a mnemonic" demoWorld).2 "" ""
    (toError (some .InvalidMnemonic)) demoCore rfl

/-- C10: the Id field of the result of DiscardTransaction is the id given by
the caller, whether the core Discard reported an error or not; the operation
makes exactly one call into the core, Discard with that id, and its outcome
does not depend on any other core operation (Complete among them). -/
theorem discard_echoes_id (geth : Geth σ φ μ) (id : String) (w : World σ φ) :
    (∀ r w1, DiscardTransaction geth id w = .returned (r, w1) →
      r.Id = id ∧ w1.calls = w.calls ++ [Invocation.DiscardTransaction id]) ∧
    (∀ err s, geth.DiscardTransaction id w.core = .returned (err, s) →
      ∃ r w1, DiscardTransaction geth id w = .returned (r, w1) ∧ r.Id = id ∧
        r.Error = errText err ∧ w1.core = s ∧
        w1.calls = w.calls ++ [Invocation.DiscardTransaction id]) ∧
    (∀ other : Geth σ φ μ, other.DiscardTransaction = geth.DiscardTransaction →
      DiscardTransaction other id w = DiscardTransaction geth id w) := by
  refine ⟨?_, ?_, ?_⟩
  · intro r w1 h
    unfold DiscardTransaction invoke at h
    cases hc : geth.DiscardTransaction id w.core with
    | panicked v => simp [hc] at h
    | returned a =>
      obtain ⟨err, s⟩ := a
      simp only [hc, Outcome.returned.injEq, Prod.mk.injEq] at h
      obtain ⟨hr, hw⟩ := h
      subst hr hw
      exact ⟨rfl, errStringOf_calls _ _⟩
  · intro err s h
    simp only [DiscardTransaction, invoke_returned _ _ w _ _ h, errStringOf_fst]
    exact ⟨_, _, rfl, rfl, rfl, errStringOf_core _ _, errStringOf_calls _ _⟩
  · intro other h
    simp only [DiscardTransaction, invoke, h]

/-- C10 at concrete inputs: an unknown id and a pending id. -/
theorem discard_echoes_id_witness :
    (∃ r w1, DiscardTransaction demoGeth "7" demoWorld = .returned (r, w1) ∧ r.Id = "7" ∧
      r.Error = "TxNotFound" ∧ w1.core = demoCore ∧
      w1.calls = [Invocation.DiscardTransaction "7"]) ∧
    (∃ r w1, DiscardTransaction demoGeth "0" demoWorld = .returned (r, w1) ∧ r.Id = "0" ∧
      r.Error = "" ∧ w1.core = (specDiscardTransaction "0" demoCore).2 ∧
      w1.calls = [Invocation.DiscardTransaction "0"]) :=
  ⟨(discard_echoes_id demoGeth "7" demoWorld).2.1 (toError (some .TxNotFound)) demoCore rfl,
   (discard_echoes_id demoGeth "0" demoWorld).2.1 none
      (specDiscardTransaction "0" demoCore).2 rfl⟩

/-- C8: the Hash field of the result of CompleteTransaction is the
hexadecimal rendering of the hash the core Complete returned, with an error
or without; it is never the empty string, so a completion that failed with an
error of non-empty message gives a result with a non-empty Error and a
non-empty Hash; the rendering of the zero hash is 0x and sixty-four zeros. -/
theorem complete_keeps_hash (geth : Geth σ φ μ) (id password : String) (w : World σ φ) :
    (∀ txHash err s,
      geth.CompleteTransaction id password w.core = .returned ((txHash, err), s) →
      ∃ r w1, CompleteTransaction geth id password w = .returned (r, w1) ∧
        r.Hash = txHash.Hex ∧ r.Error = errText err ∧ r.Hash ≠ "") ∧
    (∀ txHash e s,
      geth.CompleteTransaction id password w.core = .returned ((txHash, some e), s) →
      e.Error ≠ "" →
      ∃ r w1, CompleteTransaction geth id password w = .returned (r, w1) ∧
        r.Hash = txHash.Hex ∧ r.Error ≠ "" ∧ r.Hash ≠ "") ∧
    (∀ r w1, CompleteTransaction geth id password w = .returned (r, w1) → r.Hash ≠ "") ∧
    Hash.zero.Hex = "0x0000000000000000000000000000000000000000000000000000000000000000" := by
  refine ⟨?_, ?_, ?_, ?_⟩
  · intro txHash err s h
    simp only [CompleteTransaction, invoke_returned _ _ w _ _ h, errStringOf_fst]
    exact ⟨_, _, rfl, rfl, rfl, Hex_ne_empty _⟩
  · intro txHash e s h hne
    simp only [CompleteTransaction, invoke_returned _ _ w _ _ h, errStringOf_fst]
    exact ⟨_, _, rfl, rfl, hne, Hex_ne_empty _⟩
  · intro r w1 h
    unfold CompleteTransaction invoke at h
    cases hc : geth.CompleteTransaction id password w.core with
    | panicked v => simp [hc] at h
    | returned a =>
      obtain ⟨⟨txHash, err⟩, s⟩ := a
      simp only [hc, Outcome.returned.injEq, Prod.mk.injEq] at h
      obtain ⟨hr, -⟩ := h
      subst hr
      exact Hex_ne_empty _
  · decide

/-- C8 at a concrete input: completing an unknown id. -/
theorem complete_keeps_hash_witness :
    ∃ r w1, CompleteTransaction demoGeth "7" "secret" demoWorld = .returned (r, w1) ∧
      r.Hash = Hash.zero.Hex ∧ r.Error ≠ "" ∧ r.Hash ≠ "" :=
  (complete_keeps_hash demoGeth "7" "secret" demoWorld).2.1 Hash.zero
    ⟨ErrorKind.TxNotFound.Error⟩ demoCore rfl (by decide)

/-- C2: when the filter text does not decode (the decoder gives an error,
whose message is not empty), AddWhisperFilter returns a result whose Error is
that message and whose Id is 0; it makes no call into the core (the log of
calls and the state of the core, hence the entry count and the next-id
counter of the registry, are as before, and the outcome is the same with any
other core). -/
theorem add_filter_decode_failure (geth : Geth σ φ μ) (json_Unmarshal : String → φ × error)
    (filterJson : String) (w : World σ φ) (filter : φ) (e : GoError)
    (hdecode : json_Unmarshal filterJson = (filter, some e)) (hmessage : e.Error ≠ "") :
    (∃ r w1, AddWhisperFilter geth json_Unmarshal filterJson w = .returned (r, w1) ∧
      r.Error = e.Error ∧ r.Error ≠ "" ∧ r.Id = 0 ∧
      w1.calls = w.calls ∧ w1.core = w.core ∧
      (∀ entryCount nextId : σ → Nat,
        entryCount w1.core = entryCount w.core ∧ nextId w1.core = nextId w.core)) ∧
    (∀ other : Geth σ φ μ,
      AddWhisperFilter other json_Unmarshal filterJson w =
        AddWhisperFilter geth json_Unmarshal filterJson w) := by
  constructor
  · simp only [AddWhisperFilter, hdecode]
    refine ⟨_, _, rfl, rfl, hmessage, rfl, rfl, rfl, ?_⟩
    intro entryCount nextId
    exact ⟨rfl, rfl⟩
  · intro other
    simp only [AddWhisperFilter, hdecode]

/-- C2 at a concrete input: a text that is not a filter. -/
theorem add_filter_decode_failure_witness :
    demoUnmarshal "oops" = ("", some ⟨"invalid character looking for beginning of value"⟩) ∧
    (∃ r w1, AddWhisperFilter demoGeth demoUnmarshal "oops" demoWorld = .returned (r, w1) ∧
      r.Error = "invalid character looking for beginning of value" ∧ r.Error ≠ "" ∧ r.Id = 0 ∧
      w1.calls = [] ∧ w1.core = demoCore ∧
      (∀ entryCount nextId : Core String → Nat,
        entryCount w1.core = entryCount demoCore ∧ nextId w1.core = nextId demoCore)) :=
  ⟨by decide,
   (add_filter_decode_failure demoGeth demoUnmarshal "oops" demoWorld ""
      ⟨"invalid character looking for beginning of value"⟩ (by decide) (by decide)).1⟩

/-- C6: when the filter text decodes (and the registry Add returns),
AddWhisperFilter makes exactly one call into the core, Add on the decoded
criteria, and returns a result whose Id is the id Add returned and whose
Error is empty; with a decoder whose error messages are not empty, the Error
of a result is non-empty exactly when decoding failed. -/
theorem add_filter_decode_success (geth : Geth σ φ μ) (json_Unmarshal : String → φ × error)
    (filterJson : String) (w : World σ φ) (filter : φ) (id : Int) (s : σ)
    (hdecode : json_Unmarshal filterJson = (filter, none))
    (hadd : geth.AddWhisperFilter filter w.core = .returned (id, s))
    (hmessage : ∀ text e, (json_Unmarshal text).2 = some e → e.Error ≠ "") :
    AddWhisperFilter geth json_Unmarshal filterJson w =
      .returned ({ Id := id, Error := "" },
        { core := s, stderr := w.stderr,
          calls := w.calls ++ [Invocation.AddWhisperFilter filter] }) ∧
    (∀ text w0 r w1, AddWhisperFilter geth json_Unmarshal text w0 = .returned (r, w1) →
      (r.Error ≠ "" ↔ (json_Unmarshal text).2 ≠ none)) := by
  constructor
  · simp only [AddWhisperFilter, hdecode, invoke_returned _ _ w _ _ hadd]
    rfl
  · intro text w0 r w1 h
    unfold AddWhisperFilter at h
    cases hd : (json_Unmarshal text).2 with
    | none =>
      simp only [hd] at h
      unfold invoke at h
      cases hc : geth.AddWhisperFilter (json_Unmarshal text).1 w0.core with
      | panicked v => simp [hc] at h
      | returned a =>
        obtain ⟨i, t⟩ := a
        simp only [hc, Outcome.returned.injEq, Prod.mk.injEq] at h
        obtain ⟨hr, -⟩ := h
        subst hr
        simp [errStringOf]
    | some e =>
      simp only [hd, Outcome.returned.injEq, Prod.mk.injEq] at h
      obtain ⟨hr, -⟩ := h
      subst hr
      simp [errStringOf, hmessage text e hd]

/-- C6 at a concrete input: a filter that decodes gets the next id of the
registry. -/
theorem add_filter_decode_success_witness :
    AddWhisperFilter demoGeth demoUnmarshal "[topic-b]" demoWorld =
      .returned ({ Id := 1, Error := "" },
        { core := (specAddWhisperFilter "[topic-b]" demoCore).2, stderr := [],
          calls := [Invocation.AddWhisperFilter "[topic-b]"] }) ∧
    (∀ text w0 r w1, AddWhisperFilter demoGeth demoUnmarshal text w0 = .returned (r, w1) →
      (r.Error ≠ "" ↔ (demoUnmarshal text).2 ≠ none)) :=
  add_filter_decode_success demoGeth demoUnmarshal "[topic-b]" demoWorld "[topic-b]" 1
    (specAddWhisperFilter "[topic-b]" demoCore).2 (by decide) rfl
    (by
      intro text e h
      unfold demoUnmarshal at h
      split at h
      · cases h
      · cases h
        decide)

/-- C7: the result of CreateChildAccount has an empty Mnemonic field, whether
derivation succeeded or failed, and no result of Login, Logout,
UnlockAccount, CompleteTransaction, DiscardTransaction, StartNode, AddPeer or
AddWhisperFilter carries a mnemonic. -/
theorem mnemonic_only_where_created (geth : Geth σ φ μ) (json_Unmarshal : String → φ × error)
    (w : World σ φ) :
    (∀ parentAddress password r w1,
      CreateChildAccount geth parentAddress password w = .returned (r, w1) →
      r.Mnemonic = "" ∧ ¬ carriesMnemonic r.fields) ∧
    (∀ parentAddress password address pubKey err s,
      geth.CreateChildAccount parentAddress password w.core =
        .returned ((address, pubKey, err), s) →
      ∃ r w1, CreateChildAccount geth parentAddress password w = .returned (r, w1) ∧
        r.Error = errText err ∧ r.Mnemonic = "") ∧
    (∀ address password r w1, Login geth address password w = .returned (r, w1) →
      ¬ carriesMnemonic r.fields) ∧
    (∀ r w1, Logout geth w = .returned (r, w1) → ¬ carriesMnemonic r.fields) ∧
    (∀ address password seconds r w1,
      UnlockAccount geth address password seconds w = .returned (r, w1) →
      ¬ carriesMnemonic r.fields) ∧
    (∀ id password r w1, CompleteTransaction geth id password w = .returned (r, w1) →
      ¬ carriesMnemonic r.fields) ∧
    (∀ id r w1, DiscardTransaction geth id w = .returned (r, w1) →
      ¬ carriesMnemonic r.fields) ∧
    (∀ datadir r w1, StartNode geth datadir w = .returned (r, w1) →
      ¬ carriesMnemonic r.fields) ∧
    (∀ url r w1, AddPeer geth url w = .returned (r, w1) → ¬ carriesMnemonic r.fields) ∧
    (∀ filterJson r w1, AddWhisperFilter geth json_Unmarshal filterJson w = .returned (r, w1) →
      ¬ carriesMnemonic r.fields) := by
  refine ⟨?_, ?_, ?_, ?_, ?_, ?_, ?_, ?_, ?_, ?_⟩
  · intro parentAddress password r w1 h
    unfold CreateChildAccount invoke at h
    cases hc : geth.CreateChildAccount parentAddress password w.core with
    | panicked v => simp [hc] at h
    | returned a =>
      obtain ⟨⟨address, pubKey, err⟩, s⟩ := a
      simp only [hc, Outcome.returned.injEq, Prod.mk.injEq] at h
      obtain ⟨hr, -⟩ := h
      subst hr
      refine ⟨rfl, ?_⟩
      rintro ⟨m, hm, hne⟩
      simp [AccountInfo.fields] at hm
      exact hne hm
  · intro parentAddress password address pubKey err s h
    simp only [CreateChildAccount, invoke_returned _ _ w _ _ h, errStringOf_fst]
    exact ⟨_, _, rfl, rfl, rfl⟩
  · intro address password r w1 _
    rintro ⟨m, hm, -⟩
    simp [JSONError.fields] at hm
  · intro r w1 _
    rintro ⟨m, hm, -⟩
    simp [JSONError.fields] at hm
  · intro address password seconds r w1 _
    rintro ⟨m, hm, -⟩
    simp [JSONError.fields] at hm
  · intro id password r w1 _
    rintro ⟨m, hm, -⟩
    simp [CompleteTransactionResult.fields] at hm
  · intro id r w1 _
    rintro ⟨m, hm, -⟩
    simp [DiscardTransactionResult.fields] at hm
  · intro datadir r w1 _
    rintro ⟨m, hm, -⟩
    simp [JSONError.fields] at hm
  · intro url r w1 _
    rintro ⟨m, hm, -⟩
    simp [AddPeerResult.fields] at hm
  · intro filterJson r w1 _
    rintro ⟨m, hm, -⟩
    simp [AddWhisperFilterResult.fields] at hm

/-- C7 at concrete inputs: a derivation that succeeds and one that fails. -/
theorem mnemonic_only_where_created_witness :
    (∃ r w1, CreateChildAccount demoGeth "0xa1" "secret" demoWorld = .returned (r, w1) ∧
      r.Error = "" ∧ r.Mnemonic = "") ∧
    (∃ r w1, CreateChildAccount demoGeth "0xa1" "guess" demoWorld = .returned (r, w1) ∧
      r.Error = "InvalidPassword" ∧ r.Mnemonic = "") :=
  ⟨(mnemonic_only_where_created demoGeth demoUnmarshal demoWorld).2.1 "0xa1" "secret"
      "0xe5" "0x04f6" none demoCore rfl,
   (mnemonic_only_where_created demoGeth demoUnmarshal demoWorld).2.1 "0xa1" "guess"
      "" "" (toError (some .InvalidPassword)) demoCore rfl⟩

/-- C5 fails as stated: when the core Complete panics, CompleteTransaction
does not return a result; the panic is its outcome. -/
theorem fault_crosses_boundary :
    faultyGeth.CompleteTransaction "0" "secret" demoWorld.core =
      .panicked "runtime error: invalid memory address or nil pointer dereference" ∧
    CompleteTransaction faultyGeth "0" "secret" demoWorld =
      .panicked "runtime error: invalid memory address or nil pointer dereference" ∧
    ¬ ∃ r, CompleteTransaction faultyGeth "0" "secret" demoWorld = .returned r := by
  refine ⟨rfl, rfl, ?_⟩
  rintro ⟨r, hr⟩
  cases hr

/-- C5 as amended: every exported operation, for every input, returns
exactly when the core operations it calls return (and decoding a filter text
never prevents a return: a text that does not decode gives a result without
any call); a panic raised inside a core operation is not caught, the
operation panics with the same value.  (`fault` is `none` exactly when the
call returned, and the panic value otherwise.) -/
theorem exports_return_iff_core_returns (geth : Geth σ φ μ) (jail : Jail σ ι)
    (json_Unmarshal : String → φ × error) (w : World σ φ) :
    (∀ password,
      (CreateAccount geth password w).fault = (geth.CreateAccount password w.core).fault) ∧
    (∀ parentAddress password,
      (CreateChildAccount geth parentAddress password w).fault =
        (geth.CreateChildAccount parentAddress password w.core).fault) ∧
    (∀ password mnemonic,
      (RecoverAccount geth password mnemonic w).fault =
        (geth.RecoverAccount password mnemonic w.core).fault) ∧
    (∀ address password,
      (Login geth address password w).fault =
        (geth.SelectAccount address password w.core).fault) ∧
    ((Logout geth w).fault = (geth.Logout w.core).fault) ∧
    (∀ address password seconds,
      (UnlockAccount geth address password seconds w).fault =
        (geth.UnlockAccount address password seconds w.core).fault) ∧
    (∀ id password,
      (CompleteTransaction geth id password w).fault =
        (geth.CompleteTransaction id password w.core).fault) ∧
    (∀ id, (DiscardTransaction geth id w).fault = (geth.DiscardTransaction id w.core).fault) ∧
    (∀ datadir,
      (StartNode geth datadir w).fault =
        (geth.CreateAndRunNode datadir geth.RPCPort w.core).fault) ∧
    (∀ js, (InitJail jail js w).fault = (jail.Init js w.core).fault) ∧
    (∀ chatId js,
      (Parse jail chatId js w).fault =
        match jail.GetInstance w.core with
        | .panicked v => some v
        | .returned (inst, s) => (jail.Parse inst chatId js s).fault) ∧
    (∀ chatId path params,
      (Call jail chatId path params w).fault =
        match jail.GetInstance w.core with
        | .panicked v => some v
        | .returned (inst, s) => (jail.Call inst chatId path params s).fault) ∧
    (∀ url,
      (AddPeer geth url w).fault =
        match geth.GetNodeManager w.core with
        | .panicked v => some v
        | .returned (manager, s) => (geth.AddPeer manager url s).fault) ∧
    (∀ filterJson,
      (AddWhisperFilter geth json_Unmarshal filterJson w).fault =
        match (json_Unmarshal filterJson).2 with
        | some _ => none
        | none => (geth.AddWhisperFilter (json_Unmarshal filterJson).1 w.core).fault) ∧
    (∀ idFilter,
      (RemoveWhisperFilter geth idFilter w).fault =
        (geth.RemoveWhisperFilter idFilter w.core).fault) ∧
    ((ClearWhisperFilters geth w).fault = (geth.ClearWhisperFilters w.core).fault) ∧
    (∀ (β : Type) (o : Outcome β), o.fault = none ↔ ∃ b, o = .returned b) := by
  refine ⟨?_, ?_, ?_, ?_, ?_, ?_, ?_, ?_, ?_, ?_, ?_, ?_, ?_, ?_, ?_, ?_, ?_⟩
  · intro password
    simp only [CreateAccount, invoke]
    cases geth.CreateAccount password w.core <;> rfl
  · intro parentAddress password
    simp only [CreateChildAccount, invoke]
    cases geth.CreateChildAccount parentAddress password w.core <;> rfl
  · intro password mnemonic
    simp only [RecoverAccount, invoke]
    cases geth.RecoverAccount password mnemonic w.core <;> rfl
  · intro address password
    simp only [Login, invoke]
    cases geth.SelectAccount address password w.core <;> rfl
  · simp only [Logout, invoke]
    cases geth.Logout w.core <;> rfl
  · intro address password seconds
    simp only [UnlockAccount, invoke]
    cases geth.UnlockAccount address password seconds w.core <;> rfl
  · intro id password
    simp only [CompleteTransaction, invoke]
    cases geth.CompleteTransaction id password w.core <;> rfl
  · intro id
    simp only [DiscardTransaction, invoke]
    cases geth.DiscardTransaction id w.core <;> rfl
  · intro datadir
    simp only [StartNode, invoke]
    cases geth.CreateAndRunNode datadir geth.RPCPort w.core <;> rfl
  · intro js
    exact invoke_fault _ _ _
  · intro chatId js
    simp only [Parse, invoke]
    cases jail.GetInstance w.core with
    | panicked v => rfl
    | returned a =>
      obtain ⟨inst, s⟩ := a
      simp only
      cases jail.Parse inst chatId js s <;> rfl
  · intro chatId path params
    simp only [Call, invoke]
    cases jail.GetInstance w.core with
    | panicked v => rfl
    | returned a =>
      obtain ⟨inst, s⟩ := a
      simp only
      cases jail.Call inst chatId path params s <;> rfl
  · intro url
    simp only [AddPeer, invoke]
    cases geth.GetNodeManager w.core with
    | panicked v => rfl
    | returned a =>
      obtain ⟨manager, s⟩ := a
      simp only
      cases geth.AddPeer manager url s <;> rfl
  · intro filterJson
    simp only [AddWhisperFilter, invoke]
    cases (json_Unmarshal filterJson).2 with
    | some e => rfl
    | none =>
      simp only
      cases geth.AddWhisperFilter (json_Unmarshal filterJson).1 w.core <;> rfl
  · intro idFilter
    exact invoke_fault _ _ _
  · exact invoke_fault _ _ _
  · intro β o
    exact fault_eq_none_iff o

/-- C1: over the core of the spec, once CompleteTransaction(id, password) or
DiscardTransaction(id) has succeeded (empty Error), the entry is Completed or
Discarded; after any number of later core steps in any order (proposals,
completions and discards of any id, and operations that do not write the
queue) the entry still has that status, and every CompleteTransaction and
every DiscardTransaction on the same id returns a result whose Error is
TxAlreadyFinalized and leaves the core as it was. -/
theorem finalization_exactly_once (caps : Capabilities) (geth : Geth (Core φ) φ μ)
    (hC : geth.CompleteTransaction = coreCompleteTransaction caps)
    (hD : geth.DiscardTransaction = coreDiscardTransaction)
    (id : String) (w w1 w2 : World (Core φ) φ)
    (hfin : (∃ password r, CompleteTransaction geth id password w = .returned (r, w1) ∧
              r.Error = "") ∨
            (∃ r, DiscardTransaction geth id w = .returned (r, w1) ∧ r.Error = ""))
    (hlater : Reachable caps w1.core w2.core) :
    (statusOf id w1.core.queue = some .Completed ∨
      statusOf id w1.core.queue = some .Discarded) ∧
    statusOf id w2.core.queue = statusOf id w1.core.queue ∧
    (∀ password, ∃ r w3, CompleteTransaction geth id password w2 = .returned (r, w3) ∧
      r.Error = ErrorKind.TxAlreadyFinalized.Error ∧ w3.core = w2.core) ∧
    (∃ r w3, DiscardTransaction geth id w2 = .returned (r, w3) ∧
      r.Error = ErrorKind.TxAlreadyFinalized.Error ∧ w3.core = w2.core) := by
  have hterm : ∃ st, st ≠ TxStatus.Pending ∧ (st = .Completed ∨ st = .Discarded) ∧
      statusOf id w1.core.queue = some st := by
    rcases hfin with ⟨password, r, hret, herr⟩ | ⟨r, hret, herr⟩
    · obtain ⟨w1a, heq, hcore⟩ := CompleteTransaction_over_core caps geth hC id password w
      rw [heq] at hret
      simp only [Outcome.returned.injEq, Prod.mk.injEq] at hret
      obtain ⟨hr, hw⟩ := hret
      subst hr hw
      have hnone := (errText_toError _).1 herr
      refine ⟨.Completed, by decide, Or.inl rfl, ?_⟩
      rw [hcore]
      exact specComplete_success caps id password w.core hnone
    · obtain ⟨w1a, heq, hcore⟩ := DiscardTransaction_over_core geth hD id w
      rw [heq] at hret
      simp only [Outcome.returned.injEq, Prod.mk.injEq] at hret
      obtain ⟨hr, hw⟩ := hret
      subst hr hw
      have hnone := (errText_toError _).1 herr
      refine ⟨.Discarded, by decide, Or.inr rfl, ?_⟩
      rw [hcore]
      exact specDiscard_success id w.core hnone
  obtain ⟨st, hst, hkind, hstatus⟩ := hterm
  have hstill := reachable_keeps_terminal caps _ _ id st hst hstatus hlater
  refine ⟨?_, ?_, ?_, ?_⟩
  · rcases hkind with h | h
    · exact Or.inl (by rw [hstatus, h])
    · exact Or.inr (by rw [hstatus, h])
  · rw [hstill, hstatus]
  · intro password
    obtain ⟨w3, heq, hcore⟩ := CompleteTransaction_over_core caps geth hC id password w2
    rw [specComplete_finalized caps id password w2.core st hst hstill] at heq hcore
    exact ⟨_, w3, heq, rfl, hcore⟩
  · obtain ⟨w3, heq, hcore⟩ := DiscardTransaction_over_core geth hD id w2
    rw [specDiscard_finalized id w2.core st hst hstill] at heq hcore
    exact ⟨_, w3, heq, rfl, hcore⟩

/-- C1 at concrete inputs: transaction 0 is discarded, a proposal and a
completion attempt follow; and transaction 0 is completed, nothing
follows. -/
theorem finalization_exactly_once_witness :
    ((statusOf "0" demoDiscarded.core.queue = some .Completed ∨
        statusOf "0" demoDiscarded.core.queue = some .Discarded) ∧
      statusOf "0" demoLater.core.queue = statusOf "0" demoDiscarded.core.queue ∧
      (∀ password, ∃ r w3, CompleteTransaction demoGeth "0" password demoLater =
        .returned (r, w3) ∧ r.Error = "TxAlreadyFinalized" ∧ w3.core = demoLater.core) ∧
      (∃ r w3, DiscardTransaction demoGeth "0" demoLater = .returned (r, w3) ∧
        r.Error = "TxAlreadyFinalized" ∧ w3.core = demoLater.core)) ∧
    ((statusOf "0" demoCompleted.core.queue = some .Completed ∨
        statusOf "0" demoCompleted.core.queue = some .Discarded) ∧
      statusOf "0" demoCompleted.core.queue = statusOf "0" demoCompleted.core.queue ∧
      (∀ password, ∃ r w3, CompleteTransaction demoGeth "0" password demoCompleted =
        .returned (r, w3) ∧ r.Error = "TxAlreadyFinalized" ∧ w3.core = demoCompleted.core) ∧
      (∃ r w3, DiscardTransaction demoGeth "0" demoCompleted = .returned (r, w3) ∧
        r.Error = "TxAlreadyFinalized" ∧ w3.core = demoCompleted.core)) :=
  ⟨finalization_exactly_once demoCaps demoGeth rfl rfl "0" demoWorld demoDiscarded demoLater
      (Or.inr ⟨{ Id := "0", Error := "" }, rfl, rfl⟩)
      (Relation.ReflTransGen.tail
        (Relation.ReflTransGen.single (Step.propose "more" demoDiscarded.core))
        (Step.complete "0" "secret" (specPropose "more" demoDiscarded.core).2)),
   finalization_exactly_once demoCaps demoGeth rfl rfl "0" demoWorld demoCompleted
      demoCompleted
      (Or.inl ⟨"secret",
        { Hash := "0xabababababababababababababababababababababababababababababababab",
          Error := "" }, rfl, rfl⟩)
      Relation.ReflTransGen.refl⟩

/-- C4: over the core of the spec, when Login(address, password) is called
with a password that does not decrypt the key material the vault holds for
the address, the result has the error InvalidPassword and the core, the
selected identity included, is as before the call. -/
theorem login_wrong_password (caps : Capabilities) (geth : Geth (Core φ) φ μ)
    (hS : geth.SelectAccount = coreSelectAccount caps)
    (address password : String) (w : World (Core φ) φ) (identity : Identity)
    (hknown : w.core.vault.find? (fun i => i.address == address) = some identity)
    (hwrong : caps.decrypt identity.keyMaterial password = none) :
    ∃ r w1, Login geth address password w = .returned (r, w1) ∧
      r.Error = ErrorKind.InvalidPassword.Error ∧
      w1.core.session.active = w.core.session.active ∧ w1.core = w.core := by
  have h : geth.SelectAccount address password w.core =
      .returned (toError (some .InvalidPassword), w.core) := by
    rw [hS]
    simp [coreSelectAccount, specSelectAccount, VerifyAndDecrypt, hknown, hwrong]
  simp only [Login, invoke_returned _ _ w _ _ h, errStringOf_fst]
  refine ⟨_, _, rfl, rfl, ?_, ?_⟩
  · rw [errStringOf_core]
  · rw [errStringOf_core]

/-- C4 at a concrete input: the selected identity stays selected after a
login with a wrong password. -/
theorem login_wrong_password_witness :
    ∃ r w1, Login demoGeth "0xa1" "guess" demoWorld = .returned (r, w1) ∧
      r.Error = "InvalidPassword" ∧
      w1.core.session.active = some "0xa1" ∧ w1.core = demoCore :=
  login_wrong_password demoCaps demoGeth rfl "0xa1" "guess" demoWorld
    { address := "0xa1", pubKey := "0x04b1", keyMaterial := "secret-key" } rfl (by decide)

end Results

end Status
